import Mathlib

/-!
Shallow embedding of the browser-automation tools in `src/app.js`
(`fillField`, `clickByText`, `autoFillForm` with its helpers
`tryFillByKeywords`, the form selector and the submit loop).

A web page is modelled as the ordered list of its interactive elements in
document order, each carrying the attributes the locator strategies read.
Playwright locator semantics are embedded as boolean predicates on elements:
a locator attempt resolves to the FIRST matching element (`.first()`), and the
attempt succeeds only if that first match is visible (`waitFor` with state
"visible"; an invisible first match times out and the attempt's `catch` moves
on to the next strategy).  Matching semantics follow the libraries the source
calls into: `getByLabel`/`getByPlaceholder` with a string and `exact: false`
are case-insensitive substring match; the same calls with
`new RegExp(kw, "i")`, and role-name regex matching, are modelled for
metacharacter-free patterns, where they coincide with case-insensitive
substring match on the accessible text; CSS attribute selectors
(`[name*=..]`, `[id*=..]`, `[aria-label*=..]`, `[value*=..]`) are
case-SENSITIVE substring match, since the HTML attributes involved are not in
the legacy case-insensitive list.  Accessibility-tree data (role, accessible
name, associated label text) is carried as explicit fields of the element.
-/

namespace BUC

/-- Character-list prefix test, `a` is a prefix of `b`. -/
def chStarts : List Char → List Char → Bool
  | [], _ => true
  | _ :: _, [] => false
  | a :: as, b :: bs => a == b && chStarts as bs

/-- Character-list substring test: the first list occurs inside the second. -/
def chHasSub (needle : List Char) : List Char → Bool
  | [] => needle.isEmpty
  | c :: rest => chStarts needle (c :: rest) || chHasSub needle rest

/-- Case-sensitive substring containment, as CSS `[attr*="needle"]` matches. -/
def csContains (hay needle : String) : Bool :=
  chHasSub needle.toList hay.toList

/-- Lower-casing of a string, character by character. -/
def lowerStr (s : String) : String :=
  String.mk (s.toList.map Char.toLower)

/-- Case-insensitive substring containment, as Playwright `getByLabel`
(string, `exact: false`) and `:has-text("...")` match. -/
def ciContains (hay needle : String) : Bool :=
  csContains (lowerStr hay) (lowerStr needle)

/-- Test of `new RegExp(pattern, "i")` against a string, for the
metacharacter-free patterns the source uses as keywords: an unanchored
case-insensitive regex test is substring containment. -/
def regexTest (pattern hay : String) : Bool :=
  ciContains hay pattern

/-- Syntactic validity of a JavaScript regular-expression pattern, to the
precision the claims need: scans for a dangling escape, an unterminated
character class and unbalanced group parentheses.  Everything `regexScan`
rejects (for example a lone open parenthesis) makes `new RegExp` throw a
`SyntaxError` in JavaScript.  Arguments: remaining characters, open group
depth, pending-escape flag, inside-character-class flag. -/
def regexScan : List Char → Nat → Bool → Bool → Bool
  | [], depth, pendEsc, inClass => !pendEsc && !inClass && decide (depth = 0)
  | c :: rest, depth, pendEsc, inClass =>
    if pendEsc then regexScan rest depth false inClass
    else if c == '\\' then regexScan rest depth true inClass
    else if inClass then
      (if c == ']' then regexScan rest depth false false
       else regexScan rest depth false true)
    else if c == '[' then regexScan rest depth false true
    else if c == '(' then regexScan rest (depth + 1) false false
    else if c == ')' then
      (match depth with
       | 0 => false
       | d + 1 => regexScan rest d false false)
    else regexScan rest depth false false

/-- Whether `new RegExp(s, "i")` constructs without throwing. -/
def jsRegexValid (s : String) : Bool :=
  regexScan s.toList 0 false false

/-- One interactive element of the page, carrying the attributes consulted by
the locator strategies: tag and `type`/`id`/`name`/`aria-label`/`placeholder`/
`value` attributes, the text of the associated `label` element, the
accessibility-tree role and computed accessible name, the rendered inner
text, the current value (mutated by fills), visibility, and the index of the
enclosing `form` element when there is one. -/
structure Element where
  tag : String := ""
  typeAttr : String := ""
  idAttr : String := ""
  nameAttr : String := ""
  ariaLabel : String := ""
  placeholder : String := ""
  labelText : String := ""
  role : String := ""
  accName : String := ""
  innerText : String := ""
  valueAttr : String := ""
  currentValue : String := ""
  visible : Bool := true
  formIndex : Option Nat := none
deriving Repr, DecidableEq, Inhabited

/-- A page: the number of `form` elements and the interactive elements in
document order. -/
structure Page where
  formCount : Nat := 0
  elements : List Element := []
deriving Repr, DecidableEq, Inhabited

/-- Index of the first element satisfying a predicate (Playwright
`.first()` on a locator). -/
def firstIdx (p : Element → Bool) : List Element → Option Nat
  | [] => none
  | e :: rest => if p e then some 0 else (firstIdx p rest).map (· + 1)

/-- One locator attempt: resolve `.first()` for the predicate, then
`waitFor` visibility.  Succeeds (with the element's index) only when the
first match exists and is visible; otherwise the `catch` swallows the
timeout and the attempt fails. -/
def attemptOn (pg : Page) (p : Element → Bool) : Option Nat :=
  match firstIdx p pg.elements with
  | none => none
  | some i => if (pg.elements.getD i default).visible then some i else none

/-- Run a list of locator attempts in order with early exit, recording the
trace of attempted strategy indices and the first success as
(strategy index, element index) — the `for (const getLocator of attempts)`
loops of the source. -/
def runAttempts (pg : Page) : List (Element → Bool) → List Nat × Option (Nat × Nat)
  | [] => ([], none)
  | p :: rest =>
    match attemptOn pg p with
    | some i => ([0], some (0, i))
    | none =>
      let r := runAttempts pg rest
      (0 :: r.1.map (· + 1), r.2.map (fun q => (q.1 + 1, q.2)))

/-- Whether an element lies inside the active scope: the whole document body
(`none`), or a specific form (`some i`). -/
def inScope (scope : Option Nat) (e : Element) : Bool :=
  match scope with
  | none => true
  | some i => e.formIndex == some i

/-- Record a fill: set `currentValue` of the element at the given index. -/
def applyFill (pg : Page) (i : Nat) (v : String) : Page :=
  match pg.elements[i]? with
  | some e => { pg with elements := pg.elements.set i { e with currentValue := v } }
  | none => pg

/-! ### `fill_field` (src/app.js lines 182-217)

Seven locator attempts in the source's order: `getByLabel(label, exact:false)`
(which also matches `aria-label`), `getByPlaceholder(label, exact:false)`,
`getByRole("textbox", name: new RegExp(label, "i"))` (the regex is built
inside the attempt's thunk, so an invalid pattern only fails that attempt),
the CSS attribute-substring selectors over `aria-label`, `name` and `id` on
`input`/`textarea` (case-sensitive), and last — for every label,
unconditionally — `input[type="password"]`. -/

/-- The seventh `fill_field` attempt: first `input[type="password"]`. -/
def pwInputPred : Element → Bool :=
  fun e => e.tag == "input" && e.typeAttr == "password"

/-- The ordered attempt list of `fill_field` for one label. -/
def fillFieldAttempts (label : String) : List (Element → Bool) :=
  [ fun e => ciContains e.labelText label || ciContains e.ariaLabel label,
    fun e => ciContains e.placeholder label,
    fun e => jsRegexValid label && (e.role == "textbox" && regexTest label e.accName),
    fun e => (e.tag == "input" || e.tag == "textarea") && csContains e.ariaLabel label,
    fun e => (e.tag == "input" || e.tag == "textarea") && csContains e.nameAttr label,
    fun e => (e.tag == "input" || e.tag == "textarea") && csContains e.idAttr label,
    pwInputPred ]

/-- `fill_field`: run the attempts in order; the first success fills the
element; when all seven fail, the declared error is thrown.  Returns the
successful (strategy index, element index) and the updated page. -/
def fillField (pg : Page) (label value : String) : Except String (Nat × Nat × Page) :=
  match (runAttempts pg (fillFieldAttempts label)).2 with
  | some (k, i) => .ok (k, i, applyFill pg i value)
  | none => .error ("Unable to locate field for label " ++ label)

/-! ### `click_by_text` (src/app.js lines 231-249)

`const rx = new RegExp(text, "i")` runs before the attempts array and outside
every try/catch: an invalid pattern throws a `SyntaxError` before any locator
attempt.  Otherwise four attempts in order: `getByRole("button", name: rx)`,
`button:has-text(text)` (case-insensitive), CSS
`input[type="submit"][value*=text]` (case-sensitive), `a:has-text(text)`. -/

/-- Failure modes of `click_by_text`: the regex construction throwing, or the
declared "Unable to click element" error after all attempts fail. -/
inductive ClickError where
  | regexSyntax
  | noMatch
deriving Repr, DecidableEq

/-- The ordered attempt list of `click_by_text` for one text. -/
def clickAttempts (text : String) : List (Element → Bool) :=
  [ fun e => e.role == "button" && regexTest text e.accName,
    fun e => e.tag == "button" && ciContains e.innerText text,
    fun e => e.tag == "input" && e.typeAttr == "submit" && csContains e.valueAttr text,
    fun e => e.tag == "a" && ciContains e.innerText text ]

/-- `click_by_text`: construct the regex (throwing on an invalid pattern
before any attempt), then run the four attempts with early exit. -/
def clickByText (pg : Page) (text : String) : Except ClickError (Nat × Nat) :=
  if jsRegexValid text then
    match (runAttempts pg (clickAttempts text)).2 with
    | some r => .ok r
    | none => .error .noMatch
  else .error .regexSyntax

/-! ### `auto_fill_form` (src/app.js lines 253-419) -/

/-- The declared synonym keywords per semantic field
(`fieldToKeywords` object; the `|| [key]` default for unknown keys). -/
def fieldToKeywords (key : String) : List String :=
  if key == "firstName" then ["first name", "firstname", "given name", "given", "first"]
  else if key == "lastName" then ["last name", "lastname", "surname", "family name", "last"]
  else if key == "email" then ["email", "e-mail", "mail"]
  else if key == "password" then ["password", "passcode", "pwd"]
  else if key == "confirmPassword" then
    ["confirm password", "confirm", "retype password", "repeat password"]
  else [key]

/-- JavaScript `String.prototype.trim` for the strings at hand (space
whitespace). -/
def jsTrim (s : String) : String :=
  String.mk (((s.toList.dropWhile (· == ' ')).reverse.dropWhile (· == ' ')).reverse)

/-- `key.replace(/([A-Z])/g, " $1").trim()`: a space inserted before each
capital, then trimmed. -/
def spaceBeforeCaps (s : String) : String :=
  jsTrim (String.mk (s.toList.flatMap (fun c => if c.isUpper then [' ', c] else [c])))

/-- `key.replace(/[A-Z]/g, (m) => " " + m.toLowerCase()).trim()`: each
capital replaced by a space and its lower-case form, then trimmed. -/
def spaceLowerCaps (s : String) : String :=
  jsTrim (String.mk (s.toList.flatMap (fun c => if c.isUpper then [' ', c.toLower] else [c])))

/-- The candidate keyword list built for one field (`localized` in the
source): declared synonyms, then the raw key, then the two humanized
variants. -/
def localizedKeywords (key : String) : List String :=
  fieldToKeywords key ++ [key, spaceBeforeCaps key, spaceLowerCaps key]

/-- The nine locator attempts `tryFillByKeywords` runs for one keyword, in
source order.  All of them search `page`, the whole document — the helper
closes over `page`, not over the chosen form scope.  The first three build
`new RegExp(kw, "i")` inside the attempt, so an invalid pattern fails only
that attempt. -/
def kwStrategies (kw : String) : List (Element → Bool) :=
  [ fun e => jsRegexValid kw && (regexTest kw e.labelText || regexTest kw e.ariaLabel),
    fun e => jsRegexValid kw && regexTest kw e.placeholder,
    fun e => jsRegexValid kw && (e.role == "textbox" && regexTest kw e.accName),
    fun e => e.tag == "input" && csContains e.ariaLabel kw,
    fun e => e.tag == "textarea" && csContains e.ariaLabel kw,
    fun e => e.tag == "input" && csContains e.nameAttr kw,
    fun e => e.tag == "textarea" && csContains e.nameAttr kw,
    fun e => e.tag == "input" && csContains e.idAttr kw,
    fun e => e.tag == "textarea" && csContains e.idAttr kw ]

/-- `tryFillByKeywords`: iterate the keywords in order, each running its nine
attempts with early exit; stop at the first fill that succeeds.  Returns the
trace of issued locator calls as (keyword index, strategy index) pairs, and
the first success as (keyword index, strategy index, element index). -/
def tryFillByKeywords (pg : Page) :
    List String → List (Nat × Nat) × Option (Nat × Nat × Nat)
  | [] => ([], none)
  | kw :: rest =>
    let r := runAttempts pg (kwStrategies kw)
    match r.2 with
    | some (s, i) => (r.1.map (fun a => (0, a)), some (0, s, i))
    | none =>
      let r2 := tryFillByKeywords pg rest
      (r.1.map (fun a => (0, a)) ++ r2.1.map (fun q => (q.1 + 1, q.2)),
       r2.2.map (fun q => (q.1 + 1, q.2)))

/-- Count of fillable controls (`input, textarea, select` descendants) of
form `i` — the score the form selector computes. -/
def formScore (pg : Page) (i : Nat) : Nat :=
  (pg.elements.filter (fun e =>
    e.formIndex == some i &&
    (e.tag == "input" || e.tag == "textarea" || e.tag == "select"))).length

/-- The scores of all forms in index order. -/
def formScores (pg : Page) : List Nat :=
  (List.range pg.formCount).map (formScore pg)

/-- The selection loop of the form selector: `bestIndex = 0`,
`bestScore = -1`, strict improvement (`controls > bestScore`), so ties keep
the earlier index.  Arguments: remaining scores, index of the next score,
current best index, current best score. -/
def bestPair : List Nat → Nat → Nat → Int → Nat × Int
  | [], _, bi, bs => (bi, bs)
  | s :: rest, i, bi, bs =>
    if bs < (s : Int) then bestPair rest (i + 1) i (s : Int)
    else bestPair rest (i + 1) bi bs

/-- Index of the form the selector picks among the given scores. -/
def bestFormIndex (scores : List Nat) : Nat :=
  (bestPair scores 0 0 (-1)).1

/-- The scope `auto_fill_form` chooses: the best-scoring form when any form
exists, the document body (`none`) otherwise. -/
def chooseScope (pg : Page) : Option Nat :=
  if 0 < pg.formCount then some (bestFormIndex (formScores pg)) else none

/-- Whether a key gets the generic password fallback
(`key === "password" || key === "confirmPassword"`). -/
def isPwKey (key : String) : Bool :=
  key == "password" || key == "confirmPassword"

/-- The generic password fallback: first `input[type="password"]` INSIDE the
chosen scope (`formLocator.locator(..)`), visible within the bounded wait. -/
def pwFallback (pg : Page) (scope : Option Nat) : Option Nat :=
  attemptOn pg (fun e => inScope scope e && pwInputPred e)

/-- What processing one field of `auto_fill_form` did: the locator calls
issued (keyword index, strategy index), the successful keyword fill if any,
whether the generic password fallback ran, and what it filled if so. -/
structure FieldOutcome where
  attempts : List (Nat × Nat) := []
  kwResult : Option (Nat × Nat × Nat) := none
  fbAttempted : Bool := false
  fbResult : Option Nat := none
deriving Repr, DecidableEq, Inhabited

/-- Processing of one field in the `for (const key of fillOrder)` loop:
an empty value is skipped before any resolution (`if (!value) continue`);
otherwise the keyword chain runs page-wide, and on total failure the
password/confirmPassword keys get the scope-restricted generic fallback,
while every other key is silently skipped.  Returns the outcome and the
updated page. -/
def processField (pg : Page) (scope : Option Nat) (key value : String) :
    FieldOutcome × Page :=
  if value == "" then ({}, pg)
  else
    let r := tryFillByKeywords pg (localizedKeywords key)
    match r.2 with
    | some (j, s, i) =>
      ({ attempts := r.1, kwResult := some (j, s, i) }, applyFill pg i value)
    | none =>
      if isPwKey key then
        match pwFallback pg scope with
        | some i =>
          ({ attempts := r.1, fbAttempted := true, fbResult := some i },
           applyFill pg i value)
        | none => ({ attempts := r.1, fbAttempted := true }, pg)
      else ({ attempts := r.1 }, pg)

/-- The record `auto_fill_form` receives (all five keys required by the
declared schema). -/
structure FormData where
  firstName : String := ""
  lastName : String := ""
  email : String := ""
  password : String := ""
  confirmPassword : String := ""
deriving Repr, DecidableEq, Inhabited

/-- `data[key]` for the five semantic keys. -/
def dataGet (d : FormData) (key : String) : String :=
  if key == "firstName" then d.firstName
  else if key == "lastName" then d.lastName
  else if key == "email" then d.email
  else if key == "password" then d.password
  else if key == "confirmPassword" then d.confirmPassword
  else ""

/-- The fixed field order of `auto_fill_form`. -/
def fillOrder : List String :=
  ["firstName", "lastName", "email", "password", "confirmPassword"]

/-- The field loop: process the five fields in order, each against the page
as updated by the previous fills; collect the per-field outcomes. -/
def fillLoop (pg : Page) (scope : Option Nat) (d : FormData) :
    Page × List (String × FieldOutcome) :=
  fillOrder.foldl
    (fun acc key =>
      let r := processField acc.1 scope key (dataGet d key)
      (r.2, acc.2 ++ [(key, r.1)]))
    (pg, [])

/-- The fixed ordered submit labels. -/
def submitTexts : List String :=
  ["create account", "sign up", "signup", "register", "submit", "continue", "next"]

/-- The three submit attempts for one label, all inside the chosen scope
(`formLocator.…`): role button with the label as regex name, then
`button:has-text(label)`, then `input[type="submit"]` — the third carries NO
text filter in the source. -/
def submitAttemptsFor (scope : Option Nat) (text : String) : List (Element → Bool) :=
  [ fun e => inScope scope e &&
      (jsRegexValid text && (e.role == "button" && regexTest text e.accName)),
    fun e => inScope scope e && (e.tag == "button" && ciContains e.innerText text),
    fun e => inScope scope e && (e.tag == "input" && e.typeAttr == "submit") ]

/-- The submit loop: iterate the labels in order; for each, run the three
attempts; any successful click breaks out of the whole loop.  Returns the
first successful click as (label index, attempt index, element index). -/
def submitGo (pg : Page) (scope : Option Nat) :
    List String → Option (Nat × Nat × Nat)
  | [] => none
  | t :: rest =>
    match (runAttempts pg (submitAttemptsFor scope t)).2 with
    | some (a, i) => some (0, a, i)
    | none => (submitGo pg scope rest).map (fun q => (q.1 + 1, q.2))

/-- The submit phase over the fixed label list. -/
def submitClick (pg : Page) (scope : Option Nat) : Option (Nat × Nat × Nat) :=
  submitGo pg scope submitTexts

/-- What `auto_fill_form` returns on success, together with the trace the
claims inspect: the tool's `success: true` flag and screenshot file name,
plus the chosen scope, the per-field outcomes, the submit click (if any) and
the final page. -/
structure AutoFillOutcome where
  success : Bool
  screenshotFile : String
  scope : Option Nat
  fields : List (String × FieldOutcome)
  submitClicked : Option (Nat × Nat × Nat)
  finalPage : Page
deriving Repr, DecidableEq

/-- `auto_fill_form`: choose the scope once, run the field loop, then the
submit loop when requested, then take the confirming screenshot
(`screenshot-<now>.png`).  Every fill and submit failure is swallowed; only
the screenshot can fail the operation (`shotOk` models whether
`page.screenshot()` succeeds). -/
def autoFillForm (pg : Page) (d : FormData) (submit : Bool) (now : Nat)
    (shotOk : Bool) : Except String AutoFillOutcome :=
  let scope := chooseScope pg
  let r := fillLoop pg scope d
  let sc := if submit then submitClick r.1 scope else none
  if shotOk then
    .ok { success := true,
          screenshotFile := "screenshot-" ++ toString now ++ ".png",
          scope := scope, fields := r.2, submitClicked := sc, finalPage := r.1 }
  else .error "screenshot failed"

/-! ### Concrete test pages

Fixture pages used to instantiate the theorems and to exhibit
counterexamples.  Accessibility data follows the HTML-AAM mapping: an
`input[type="submit"]` has implicit role `button` with its accessible name
taken from `aria-label` when present, else from `value`; text-like inputs
(including password) have role `textbox`; anchors have role `link`. -/

/-- Two forms with one control each: a tie resolved by first index. -/
def tiePage : Page :=
  { formCount := 2,
    elements :=
      [ { tag := "input", typeAttr := "text", role := "textbox", formIndex := some 0 },
        { tag := "input", typeAttr := "text", role := "textbox", formIndex := some 1 } ] }

/-- A page with nothing on it. -/
def emptyPage : Page := { formCount := 0, elements := [] }

/-- A record with all five values empty. -/
def emptyData : FormData :=
  { firstName := "", lastName := "", email := "", password := "", confirmPassword := "" }

/-- A page whose only element is a visible password input with no label,
placeholder, name or id: nothing matches any keyword, only the generic
password strategies can hit it. -/
def pwTrapPage : Page :=
  { formCount := 0,
    elements := [ { tag := "input", typeAttr := "password", role := "textbox" } ] }

/-- A page whose only element is a visible text input with `name="email"`. -/
def emailPage : Page :=
  { formCount := 0,
    elements := [ { tag := "input", typeAttr := "text", nameAttr := "email" } ] }

/-- One form containing one anonymous password input. -/
def scopedPwPage : Page :=
  { formCount := 1,
    elements :=
      [ { tag := "input", typeAttr := "password", role := "textbox", formIndex := some 0 } ] }

/-- One form holding only an anonymous password input, plus an email input
OUTSIDE the form: the chosen scope is the form, yet the keyword resolution
for `email` finds and fills the outside input. -/
def cexPage : Page :=
  { formCount := 1,
    elements :=
      [ { tag := "input", typeAttr := "password", role := "textbox", formIndex := some 0 },
        { tag := "input", typeAttr := "text", nameAttr := "email", role := "textbox" } ] }

/-- A record with only the email value set. -/
def cexData : FormData :=
  { firstName := "", lastName := "", email := "a@b.c", password := "", confirmPassword := "" }

/-- A visible submit input labelled "Go": its value and accessible name match
none of the seven submit labels. -/
def cex7Page : Page :=
  { formCount := 0,
    elements :=
      [ { tag := "input", typeAttr := "submit", role := "button",
          accName := "Go", valueAttr := "Go" } ] }

/-- A visible submit input with `aria-label="Go"` and `value="SIGN UP"`: the
value contains "sign up" case-insensitively but not case-sensitively, and
the accessible name (from the aria-label) matches nothing. -/
def cex8Page : Page :=
  { formCount := 0,
    elements :=
      [ { tag := "input", typeAttr := "submit", role := "button",
          ariaLabel := "Go", accName := "Go", valueAttr := "SIGN UP" } ] }

/-- A visible button reading "Sign Up". -/
def sbPage : Page :=
  { formCount := 0,
    elements :=
      [ { tag := "button", role := "button", accName := "Sign Up",
          innerText := "Sign Up" } ] }

/-- A page with only a link reading "Sign Up" and no button. -/
def linkPage : Page :=
  { formCount := 0,
    elements :=
      [ { tag := "a", role := "link", accName := "Sign Up",
          innerText := "Sign Up" } ] }

/-- A page with a visible link whose text is a lone open parenthesis. -/
def parenPage : Page :=
  { formCount := 0,
    elements := [ { tag := "a", role := "link", innerText := "(" } ] }

end BUC

deriving instance DecidableEq for Except

namespace BUC

/-! ### Helper lemmas about the attempt runners -/

/-- A successful `.first()` resolution returns an in-bounds index whose
element satisfies the predicate. -/
theorem firstIdx_some (p : Element → Bool) :
    ∀ (es : List Element) (i : Nat), firstIdx p es = some i →
      i < es.length ∧ p (es.getD i default) = true := by
  intro es
  induction es with
  | nil => intro i h; simp [firstIdx] at h
  | cons e rest ih =>
    intro i h
    by_cases hp : p e = true
    · simp [firstIdx, hp] at h
      subst h
      simpa using hp
    · simp [firstIdx, hp] at h
      rcases h with ⟨j, hj, hji⟩
      rcases ih j hj with ⟨hlen, hpj⟩
      subst hji
      exact ⟨by simpa using Nat.succ_lt_succ hlen, by simpa using hpj⟩

/-- A successful locator attempt acts on an element that satisfies the
predicate and is visible. -/
theorem attemptOn_some (pg : Page) (p : Element → Bool) (i : Nat)
    (h : attemptOn pg p = some i) :
    i < pg.elements.length ∧ p (pg.elements.getD i default) = true ∧
      (pg.elements.getD i default).visible = true := by
  rcases hf : firstIdx p pg.elements with _ | j
  · simp [attemptOn, hf] at h
  · simp [attemptOn, hf] at h
    obtain ⟨hv, rfl⟩ := h
    rcases firstIdx_some p pg.elements j hf with ⟨h1, h2⟩
    exact ⟨h1, h2, by simpa using hv⟩

/-- A successful run of an attempt chain succeeds at the recorded strategy,
and every earlier strategy failed. -/
theorem runAttempts_some (pg : Page) :
    ∀ (ps : List (Element → Bool)) (k i : Nat),
      (runAttempts pg ps).2 = some (k, i) →
      k < ps.length ∧ attemptOn pg (ps.getD k default) = some i ∧
        ∀ m, m < k → attemptOn pg (ps.getD m default) = none := by
  intro ps
  induction ps with
  | nil => intro k i h; simp [runAttempts] at h
  | cons p rest ih =>
    intro k i h
    rcases ho : attemptOn pg p with _ | j
    · have hrw : (runAttempts pg (p :: rest)).2 =
          ((runAttempts pg rest).2).map (fun q => (q.1 + 1, q.2)) := by
        simp [runAttempts, ho]
      rw [hrw] at h
      rcases hb : (runAttempts pg rest).2 with _ | q
      · rw [hb] at h; simp at h
      · rcases q with ⟨k2, i2⟩
        rw [hb] at h
        simp only [Option.map_some', Option.some.injEq, Prod.mk.injEq] at h
        obtain ⟨rfl, rfl⟩ := h
        rcases ih k2 i2 hb with ⟨h1, h2, h3⟩
        refine ⟨by simpa using Nat.succ_lt_succ h1, by simpa using h2, ?_⟩
        intro m hm
        match m with
        | 0 => simpa using ho
        | m' + 1 =>
          have := h3 m' (by omega)
          simpa using this
    · have hrw : (runAttempts pg (p :: rest)).2 = some (0, j) := by
        simp [runAttempts, ho]
      rw [hrw] at h
      simp only [Option.some.injEq, Prod.mk.injEq] at h
      obtain ⟨rfl, rfl⟩ := h
      refine ⟨by simp, by simpa using ho, ?_⟩
      intro m hm
      omega

/-- The attempted-strategy trace of a nonempty attempt chain is nonempty:
the first locator call is always issued. -/
theorem runAttempts_trace_cons (pg : Page) (p : Element → Bool)
    (ps : List (Element → Bool)) : (runAttempts pg (p :: ps)).1 ≠ [] := by
  rcases ho : attemptOn pg p with _ | j <;> simp [runAttempts, ho]

/-- A successful keyword chain succeeds at the recorded keyword, and every
earlier keyword's whole strategy chain failed. -/
theorem tryFill_some (pg : Page) :
    ∀ (kws : List String) (j s i : Nat),
      (tryFillByKeywords pg kws).2 = some (j, s, i) →
      j < kws.length ∧
        (runAttempts pg (kwStrategies (kws.getD j ""))).2 = some (s, i) ∧
        ∀ m, m < j → (runAttempts pg (kwStrategies (kws.getD m ""))).2 = none := by
  intro kws
  induction kws with
  | nil => intro j s i h; simp [tryFillByKeywords] at h
  | cons kw rest ih =>
    intro j s i h
    rcases hr : (runAttempts pg (kwStrategies kw)).2 with _ | q
    · have hrw : (tryFillByKeywords pg (kw :: rest)).2 =
          ((tryFillByKeywords pg rest).2).map (fun q => (q.1 + 1, q.2)) := by
        simp [tryFillByKeywords, hr]
      rw [hrw] at h
      rcases hb : (tryFillByKeywords pg rest).2 with _ | q
      · rw [hb] at h; simp at h
      · rcases q with ⟨j2, s2, i2⟩
        rw [hb] at h
        simp only [Option.map_some', Option.some.injEq, Prod.mk.injEq] at h
        obtain ⟨rfl, rfl, rfl⟩ := h
        rcases ih j2 s2 i2 hb with ⟨h1, h2, h3⟩
        refine ⟨by simpa using Nat.succ_lt_succ h1, by simpa using h2, ?_⟩
        intro m hm
        match m with
        | 0 => simpa using hr
        | m' + 1 =>
          have := h3 m' (by omega)
          simpa using this
    · rcases q with ⟨s2, i2⟩
      have hrw : (tryFillByKeywords pg (kw :: rest)).2 = some (0, s2, i2) := by
        simp [tryFillByKeywords, hr]
      rw [hrw] at h
      simp only [Option.some.injEq, Prod.mk.injEq] at h
      obtain ⟨rfl, rfl, rfl⟩ := h
      refine ⟨by simp, by simpa using hr, ?_⟩
      intro m hm
      omega

/-- A keyword chain over at least one keyword always issues locator calls. -/
theorem tryFill_trace_ne_nil (pg : Page) (kw : String) (rest : List String) :
    (tryFillByKeywords pg (kw :: rest)).1 ≠ [] := by
  have htr : (runAttempts pg (kwStrategies kw)).1 ≠ [] := by
    have : kwStrategies kw =
        (fun e => jsRegexValid kw && (regexTest kw e.labelText || regexTest kw e.ariaLabel)) ::
          (kwStrategies kw).tail := rfl
    rw [this]
    exact runAttempts_trace_cons pg _ _
  rcases hr : (runAttempts pg (kwStrategies kw)).2 with _ | q
  · have hrw : (tryFillByKeywords pg (kw :: rest)).1 =
        (runAttempts pg (kwStrategies kw)).1.map (fun a => ((0 : Nat), a)) ++
          (tryFillByKeywords pg rest).1.map (fun q => (q.1 + 1, q.2)) := by
      simp [tryFillByKeywords, hr]
    rw [hrw]
    intro hcon
    rcases List.append_eq_nil.mp hcon with ⟨h1, _⟩
    exact htr (by simpa using h1)
  · rcases q with ⟨s2, i2⟩
    have hrw : (tryFillByKeywords pg (kw :: rest)).1 =
        (runAttempts pg (kwStrategies kw)).1.map (fun a => ((0 : Nat), a)) := by
      simp [tryFillByKeywords, hr]
    rw [hrw]
    intro hcon
    exact htr (by simpa using hcon)

/-- The candidate keyword list of a field is never empty. -/
theorem localizedKeywords_ne_nil (key : String) : localizedKeywords key ≠ [] := by
  simp [localizedKeywords]

/-- A successful submit loop clicks at the recorded label and attempt, every
earlier attempt of that label failed, and every earlier label's whole
attempt chain failed. -/
theorem submitGo_some (pg : Page) (scope : Option Nat) :
    ∀ (ts : List String) (l a i : Nat),
      submitGo pg scope ts = some (l, a, i) →
      l < ts.length ∧
        (runAttempts pg (submitAttemptsFor scope (ts.getD l ""))).2 = some (a, i) ∧
        ∀ m, m < l → (runAttempts pg (submitAttemptsFor scope (ts.getD m ""))).2 = none := by
  intro ts
  induction ts with
  | nil => intro l a i h; simp [submitGo] at h
  | cons t rest ih =>
    intro l a i h
    rcases hr : (runAttempts pg (submitAttemptsFor scope t)).2 with _ | q
    · have hrw : submitGo pg scope (t :: rest) =
          (submitGo pg scope rest).map (fun q => (q.1 + 1, q.2)) := by
        simp [submitGo, hr]
      rw [hrw] at h
      rcases hb : submitGo pg scope rest with _ | q
      · rw [hb] at h; simp at h
      · rcases q with ⟨l2, a2, i2⟩
        rw [hb] at h
        simp only [Option.map_some', Option.some.injEq, Prod.mk.injEq] at h
        obtain ⟨rfl, rfl, rfl⟩ := h
        rcases ih l2 a2 i2 hb with ⟨h1, h2, h3⟩
        refine ⟨by simpa using Nat.succ_lt_succ h1, by simpa using h2, ?_⟩
        intro m hm
        match m with
        | 0 => simpa using hr
        | m' + 1 =>
          have := h3 m' (by omega)
          simpa using this
    · rcases q with ⟨a2, i2⟩
      have hrw : submitGo pg scope (t :: rest) = some (0, a2, i2) := by
        simp [submitGo, hr]
      rw [hrw] at h
      simp only [Option.some.injEq, Prod.mk.injEq] at h
      obtain ⟨rfl, rfl, rfl⟩ := h
      refine ⟨by simp, by simpa using hr, ?_⟩
      intro m hm
      omega

/-! ### Helper lemmas about the form-selection loop -/

/-- An in-bounds `getD` over a list of scores is a member of the list. -/
theorem getD_mem : ∀ (l : List Nat) (m : Nat), m < l.length → l.getD m 0 ∈ l
  | [], m, h => absurd h (by simp)
  | x :: xs, 0, _ => by simp
  | x :: xs, m + 1, h => by
    simpa using Or.inr (getD_mem xs m (by simpa using h))

/-- Behaviour of the selection loop: either no score beats the incoming best
(and the incoming pair is returned), or the loop returns the position of the
first score that attains the running maximum — every later score is at most
it, and every earlier score is strictly below it. -/
theorem bestPair_spec :
    ∀ (scores : List Nat) (i bi : Nat) (bs : Int),
      (bestPair scores i bi bs = (bi, bs) ∧ ∀ s ∈ scores, (s : Int) ≤ bs)
    ∨ (∃ k, k < scores.length ∧
        bestPair scores i bi bs = (i + k, ((scores.getD k 0 : Nat) : Int)) ∧
        bs < ((scores.getD k 0 : Nat) : Int) ∧
        (∀ m, m < scores.length → k < m → scores.getD m 0 ≤ scores.getD k 0) ∧
        (∀ m, m < k → scores.getD m 0 < scores.getD k 0)) := by
  intro scores
  induction scores with
  | nil =>
    intro i bi bs
    left
    exact ⟨rfl, by simp⟩
  | cons s rest ih =>
    intro i bi bs
    by_cases hlt : bs < (s : Int)
    · rcases ih (i + 1) i (s : Int) with ⟨heq, hall⟩ | ⟨k, hk, heq, hgt, hle, hsl⟩
      · right
        refine ⟨0, by simp, ?_, by simpa using hlt, ?_, ?_⟩
        · simpa [bestPair, hlt] using heq
        · intro m hm h0m
          match m with
          | m' + 1 =>
            have hmem : rest.getD m' 0 ∈ rest := getD_mem rest m' (by simpa using hm)
            have := hall _ hmem
            simp only [List.getD_cons_succ, List.getD_cons_zero]
            omega
        · intro m hm
          omega
      · right
        refine ⟨k + 1, by simpa using hk, ?_, ?_, ?_, ?_⟩
        · rw [show (s :: rest).getD (k + 1) 0 = rest.getD k 0 from rfl]
          rw [show i + (k + 1) = i + 1 + k by omega]
          simpa [bestPair, hlt] using heq
        · rw [show (s :: rest).getD (k + 1) 0 = rest.getD k 0 from rfl]
          omega
        · intro m hm hkm
          match m with
          | m' + 1 =>
            simp only [List.getD_cons_succ]
            exact hle m' (by simpa using hm) (by omega)
        · intro m hm
          match m with
          | 0 =>
            simp only [List.getD_cons_succ, List.getD_cons_zero]
            omega
          | m' + 1 =>
            simp only [List.getD_cons_succ]
            exact hsl m' (by omega)
    · rcases ih (i + 1) bi bs with ⟨heq, hall⟩ | ⟨k, hk, heq, hgt, hle, hsl⟩
      · left
        refine ⟨by simpa [bestPair, hlt] using heq, ?_⟩
        intro x hx
        rcases List.mem_cons.mp hx with hx0 | hxr
        · subst hx0
          omega
        · exact hall x hxr
      · right
        refine ⟨k + 1, by simpa using hk, ?_, ?_, ?_, ?_⟩
        · rw [show (s :: rest).getD (k + 1) 0 = rest.getD k 0 from rfl]
          rw [show i + (k + 1) = i + 1 + k by omega]
          simpa [bestPair, hlt] using heq
        · rw [show (s :: rest).getD (k + 1) 0 = rest.getD k 0 from rfl]
          omega
        · intro m hm hkm
          match m with
          | m' + 1 =>
            simp only [List.getD_cons_succ]
            exact hle m' (by simpa using hm) (by omega)
        · intro m hm
          match m with
          | 0 =>
            simp only [List.getD_cons_succ, List.getD_cons_zero]
            omega
          | m' + 1 =>
            simp only [List.getD_cons_succ]
            exact hsl m' (by omega)

/-- There are as many scores as forms. -/
theorem formScores_length (pg : Page) : (formScores pg).length = pg.formCount := by
  simp [formScores]

/-- The `j`-th score is the control count of form `j`. -/
theorem formScores_getD (pg : Page) (j : Nat) (h : j < pg.formCount) :
    (formScores pg).getD j 0 = formScore pg j := by
  rw [List.getD_eq_getElem _ _ (by simpa [formScores_length] using h)]
  simp [formScores]

/-! ### Claim theorems -/

/-- C2: the Form Selector of `autoFillForm` sets the scope to the whole
document body when the page has zero form elements; with one or more forms
it selects a form whose count of input/textarea/select descendants is
maximal, and on ties the one with the smallest index: every earlier form
scores strictly lower. -/
theorem formSelector_max_first (pg : Page) :
    (pg.formCount = 0 → chooseScope pg = none) ∧
    (0 < pg.formCount →
      ∃ i, chooseScope pg = some i ∧ i < pg.formCount ∧
        (∀ j, j < pg.formCount → formScore pg j ≤ formScore pg i) ∧
        (∀ j, j < i → formScore pg j < formScore pg i)) := by
  constructor
  · intro h
    simp [chooseScope, h]
  · intro h
    rcases bestPair_spec (formScores pg) 0 0 (-1) with ⟨heq, hall⟩ | ⟨k, hk, heq, hgt, hle, hsl⟩
    · exfalso
      have hlen : 0 < (formScores pg).length := by
        simpa [formScores_length] using h
      have hmem := getD_mem (formScores pg) 0 hlen
      have := hall _ hmem
      omega
    · have hkc : k < pg.formCount := by
        simpa [formScores_length] using hk
      refine ⟨k, ?_, hkc, ?_, ?_⟩
      · simp [chooseScope, h, bestFormIndex, heq]
      · intro j hj
        rcases Nat.lt_trichotomy j k with h1 | h1 | h1
        · have := hsl j h1
          rw [formScores_getD pg j hj, formScores_getD pg k hkc] at this
          omega
        · subst h1
          exact Nat.le_refl _
        · have := hle j (by simpa [formScores_length] using hj) h1
          rw [formScores_getD pg j hj, formScores_getD pg k hkc] at this
          exact this
      · intro j hj
        have := hsl j hj
        rw [formScores_getD pg j (Nat.lt_trans hj hkc), formScores_getD pg k hkc] at this
        exact this

/-- C2 witness: on a page with two tied one-control forms, the selector
picks an index satisfying the max-and-first property. -/
theorem formSelector_max_first_witness :
    ∃ i, chooseScope tiePage = some i ∧ i < tiePage.formCount ∧
      (∀ j, j < tiePage.formCount → formScore tiePage j ≤ formScore tiePage i) ∧
      (∀ j, j < i → formScore tiePage j < formScore tiePage i) :=
  (formSelector_max_first tiePage).2 (by decide)

/-- C3: whenever the final screenshot succeeds, `autoFillForm` returns a
success result carrying the screenshot file handle — for EVERY page, every
record, and whether or not submission was requested, so regardless of
whether any field was filled and regardless of whether a submit button was
found or clicked: the submit click outcome is recorded as-is (`none` when no
label matched, the click otherwise) and never affects the success result. -/
theorem autoFill_success_total (pg : Page) (d : FormData) (submit : Bool) (now : Nat) :
    autoFillForm pg d submit now true =
      Except.ok { success := true,
                  screenshotFile := "screenshot-" ++ toString now ++ ".png",
                  scope := chooseScope pg,
                  fields := (fillLoop pg (chooseScope pg) d).2,
                  submitClicked :=
                    if submit then
                      submitClick (fillLoop pg (chooseScope pg) d).1 (chooseScope pg)
                    else none,
                  finalPage := (fillLoop pg (chooseScope pg) d).1 } := by
  simp [autoFillForm]

/-- C3 witness: on the page with a "Sign Up" button, a submit button is
found and clicked (label 1, attempt 0, element 0), and the operation still
returns success with the screenshot handle; the empty page, where no submit
button matches, is likewise success. -/
theorem autoFill_success_total_witness :
    (autoFillForm sbPage emptyData true 7 true =
      Except.ok { success := true,
                  screenshotFile := "screenshot-7.png",
                  scope := none,
                  fields := (fillLoop sbPage (chooseScope sbPage) emptyData).2,
                  submitClicked := some (1, 0, 0),
                  finalPage := (fillLoop sbPage (chooseScope sbPage) emptyData).1 }) ∧
    (autoFillForm emptyPage emptyData true 7 true =
      Except.ok { success := true,
                  screenshotFile := "screenshot-7.png",
                  scope := none,
                  fields := (fillLoop emptyPage (chooseScope emptyPage) emptyData).2,
                  submitClicked := none,
                  finalPage := (fillLoop emptyPage (chooseScope emptyPage) emptyData).1 }) :=
  ⟨autoFill_success_total sbPage emptyData true 7,
   autoFill_success_total emptyPage emptyData true 7⟩

/-- C5: in `autoFillForm`, when every candidate keyword of a field fails, a
password or confirmPassword field gets exactly one final fallback — the
first password-type input inside the chosen scope — and the page is updated
accordingly when it hits; any other field is silently skipped: no fallback,
no error, the page unchanged by that field's processing. -/
theorem password_fallback_policy (pg : Page) (scope : Option Nat) (key value : String)
    (hv : (value == "") = false)
    (hfail : (tryFillByKeywords pg (localizedKeywords key)).2 = none) :
    (isPwKey key = true →
      (processField pg scope key value).1.fbAttempted = true ∧
      (processField pg scope key value).1.fbResult = pwFallback pg scope ∧
      (processField pg scope key value).2 =
        (match pwFallback pg scope with
         | some i => applyFill pg i value
         | none => pg)) ∧
    (isPwKey key = false →
      (processField pg scope key value).1.fbAttempted = false ∧
      (processField pg scope key value).1.fbResult = none ∧
      (processField pg scope key value).2 = pg) := by
  constructor
  · intro hpw
    rcases hf : pwFallback pg scope with _ | i <;>
      simp [processField, hv, hfail, hpw, hf]
  · intro hpw
    simp [processField, hv, hfail, hpw]

/-- C5 witness: on a page with only an anonymous password input, the
password field's keywords all fail and the generic fallback runs and fills
that input. -/
theorem password_fallback_policy_witness :
    (processField pwTrapPage none "password" "s3cret").1.fbAttempted = true ∧
    (processField pwTrapPage none "password" "s3cret").1.fbResult = pwFallback pwTrapPage none ∧
    (processField pwTrapPage none "password" "s3cret").2 =
      (match pwFallback pwTrapPage none with
       | some i => applyFill pwTrapPage i "s3cret"
       | none => pwTrapPage) :=
  (password_fallback_policy pwTrapPage none "password" "s3cret"
    (by decide) (by decide)).1 (by decide)

/-- C6: the candidate keyword list of each semantic field is the declared
synonyms, then the raw key, then the two humanized variants — a space before
each internal capital, and the lower-cased spaced form — and the keyword
chain stops at the first keyword whose strategy chain fills successfully:
every earlier keyword's whole chain failed. -/
theorem keyword_list_order :
    (localizedKeywords "firstName" =
      fieldToKeywords "firstName" ++ ["firstName", "first Name", "first name"]) ∧
    (localizedKeywords "lastName" =
      fieldToKeywords "lastName" ++ ["lastName", "last Name", "last name"]) ∧
    (localizedKeywords "email" =
      fieldToKeywords "email" ++ ["email", "email", "email"]) ∧
    (localizedKeywords "password" =
      fieldToKeywords "password" ++ ["password", "password", "password"]) ∧
    (localizedKeywords "confirmPassword" =
      fieldToKeywords "confirmPassword" ++
        ["confirmPassword", "confirm Password", "confirm password"]) ∧
    ∀ (pg : Page) (kws : List String) (j s i : Nat),
      (tryFillByKeywords pg kws).2 = some (j, s, i) →
      (runAttempts pg (kwStrategies (kws.getD j ""))).2 = some (s, i) ∧
      ∀ m, m < j → (runAttempts pg (kwStrategies (kws.getD m ""))).2 = none := by
  refine ⟨by decide, by decide, by decide, by decide, by decide, ?_⟩
  intro pg kws j s i h
  rcases tryFill_some pg kws j s i h with ⟨_, h2, h3⟩
  exact ⟨h2, h3⟩

/-- C6 witness: with keywords "zzz" then "email" on a page with an
`name="email"` input, the chain succeeds at the second keyword. -/
theorem keyword_list_order_witness :
    (runAttempts emailPage (kwStrategies ((["zzz", "email"] : List String).getD 1 ""))).2 =
      some (5, 0) :=
  (keyword_list_order.2.2.2.2.2 emailPage ["zzz", "email"] 1 5 0 (by decide)).1

/-- C9: a field whose value is empty is skipped before any resolution: no
locator call is issued and the page is returned unchanged; by contrast a
field with a non-empty value always issues at least one locator call. -/
theorem empty_value_skipped (pg : Page) (scope : Option Nat) (key : String) :
    processField pg scope key "" =
      ({ attempts := [], kwResult := none, fbAttempted := false, fbResult := none }, pg) ∧
    ∀ v, (v == "") = false → (processField pg scope key v).1.attempts ≠ [] := by
  constructor
  · rfl
  · intro v hv
    rcases hk : localizedKeywords key with _ | ⟨kw, rest⟩
    · exact absurd hk (localizedKeywords_ne_nil key)
    · have hne : (tryFillByKeywords pg (localizedKeywords key)).1 ≠ [] := by
        rw [hk]
        exact tryFill_trace_ne_nil pg kw rest
      rcases hr : (tryFillByKeywords pg (localizedKeywords key)).2 with _ | q
      · by_cases hpw : isPwKey key = true
        · rcases hf : pwFallback pg scope with _ | i <;>
            simpa [processField, hv, hr, hpw, hf] using hne
        · have hpw2 : isPwKey key = false := by simpa using hpw
          simpa [processField, hv, hr, hpw2] using hne
      · rcases q with ⟨j, s, i⟩
        simpa [processField, hv, hr] using hne

/-- C9 witness: the email field with an empty value is skipped with no
locator call, while a non-empty value issues locator calls. -/
theorem empty_value_skipped_witness :
    processField emailPage none "email" "" =
      ({ attempts := [], kwResult := none, fbAttempted := false, fbResult := none },
       emailPage) ∧
    (processField emailPage none "email" "x").1.attempts ≠ [] :=
  ⟨(empty_value_skipped emailPage none "email").1,
   (empty_value_skipped emailPage none "email").2 "x" (by decide)⟩

/-- C1 counterexample: on `cexPage` the chosen scope is form 0, yet the
keyword resolution of the email field resolves and fills element 1, which
lies OUTSIDE the chosen scope — the keyword strategies search the whole
page, so a field resolution does search outside the chosen scope. -/
theorem scope_pagewide_cex :
    chooseScope cexPage = some 0 ∧
    (processField cexPage (chooseScope cexPage) "email" "a@b.c").1.kwResult =
      some (0, 5, 1) ∧
    (processField cexPage (chooseScope cexPage) "email" "a@b.c").2 =
      applyFill cexPage 1 "a@b.c" ∧
    inScope (chooseScope cexPage) (cexPage.elements.getD 1 default) = false := by
  decide

/-- C1 (amended): the scope is chosen exactly once at the start of the call
and recorded unchanged in the outcome; it is respected by the generic
password fallback and by the submit-button search, but keyword-based field
resolutions are scope-independent (they search the whole page). -/
theorem scope_usage_amended :
    (∀ (pg : Page) (d : FormData) (submit : Bool) (now : Nat) (o : AutoFillOutcome),
       autoFillForm pg d submit now true = Except.ok o → o.scope = chooseScope pg) ∧
    (∀ (pg : Page) (s1 s2 : Option Nat) (key value : String),
       (processField pg s1 key value).1.kwResult =
         (processField pg s2 key value).1.kwResult) ∧
    (∀ (pg : Page) (scope : Option Nat) (key value : String) (i : Nat),
       (processField pg scope key value).1.fbResult = some i →
       inScope scope (pg.elements.getD i default) = true) ∧
    (∀ (pg : Page) (scope : Option Nat) (l a i : Nat),
       submitClick pg scope = some (l, a, i) →
       inScope scope (pg.elements.getD i default) = true) := by
  refine ⟨?_, ?_, ?_, ?_⟩
  · intro pg d submit now o h
    simp only [autoFillForm] at h
    simp at h
    rw [← h]
  · intro pg s1 s2 key value
    by_cases hv : (value == "") = true
    · simp [processField, hv]
    · have hv2 : (value == "") = false := by simpa using hv
      rcases hr : (tryFillByKeywords pg (localizedKeywords key)).2 with _ | q
      · by_cases hpw : isPwKey key = true
        · rcases hf1 : pwFallback pg s1 with _ | i1 <;>
            rcases hf2 : pwFallback pg s2 with _ | i2 <;>
            simp [processField, hv2, hr, hpw, hf1, hf2]
        · have hpw2 : isPwKey key = false := by simpa using hpw
          simp [processField, hv2, hr, hpw2]
      · rcases q with ⟨j, s, i⟩
        simp [processField, hv2, hr]
  · intro pg scope key value i h
    by_cases hv : (value == "") = true
    · simp [processField, hv] at h
    · have hv2 : (value == "") = false := by simpa using hv
      rcases hr : (tryFillByKeywords pg (localizedKeywords key)).2 with _ | q
      · by_cases hpw : isPwKey key = true
        · rcases hf : pwFallback pg scope with _ | i2
          · simp [processField, hv2, hr, hpw, hf] at h
          · simp [processField, hv2, hr, hpw, hf] at h
            subst h
            rcases attemptOn_some pg (fun e => inScope scope e && pwInputPred e) i2 hf
              with ⟨_, hp, _⟩
            simp only [Bool.and_eq_true] at hp
            exact hp.1
        · have hpw2 : isPwKey key = false := by simpa using hpw
          simp [processField, hv2, hr, hpw2] at h
      · rcases q with ⟨j, s, i2⟩
        simp [processField, hv2, hr] at h
  · intro pg scope l a i h
    rcases submitGo_some pg scope submitTexts l a i h with ⟨_, h2, _⟩
    rcases runAttempts_some pg _ a i h2 with ⟨ha, h3, _⟩
    have ha3 : a < 3 := by simpa [submitAttemptsFor] using ha
    rcases attemptOn_some pg _ i h3 with ⟨_, hp, _⟩
    rcases a with _ | _ | _ | a4
    · simp only [submitAttemptsFor, List.getD_cons_zero, Bool.and_eq_true] at hp
      exact hp.1
    · simp only [submitAttemptsFor, List.getD_cons_succ, List.getD_cons_zero,
        Bool.and_eq_true] at hp
      exact hp.1
    · simp only [submitAttemptsFor, List.getD_cons_succ, List.getD_cons_zero,
        Bool.and_eq_true] at hp
      exact hp.1
    · omega

/-- C1 (amended) witness: on the one-form page the password fallback fills
the in-form password input, and that element is indeed inside the scope. -/
theorem scope_usage_amended_witness :
    inScope (some 0) (scopedPwPage.elements.getD 0 default) = true :=
  scope_usage_amended.2.2.1 scopedPwPage (some 0) "password" "v" 0 (by decide)

/-- C4 counterexample: `fill_field` with the non-password label "email", on
a page whose only element is a visible password input matching none of the
first six strategies, still succeeds via the seventh strategy — the
password-input fallback fires for a label that is not a password field. -/
theorem fillField_pw_fallback_cex :
    runAttempts pwTrapPage (fillFieldAttempts "email") =
      ([0, 1, 2, 3, 4, 5, 6], some (6, 0)) ∧
    (pwTrapPage.elements.getD 0 default).typeAttr = "password" ∧
    isPwKey "email" = false ∧
    fillField pwTrapPage "email" "x@y.z" =
      Except.ok (6, 0, applyFill pwTrapPage 0 "x@y.z") := by
  decide

/-- C4 (amended): `fill_field` attempts its seven strategies in the fixed
order and stops at the first that resolves a visible element, which it
fills; the seventh strategy — the first password-type input — is attempted
for EVERY label, not only for password fields. -/
theorem fillField_chain_amended (pg : Page) (label value : String) (k i : Nat)
    (pg2 : Page) (h : fillField pg label value = Except.ok (k, i, pg2)) :
    k < 7 ∧
    attemptOn pg ((fillFieldAttempts label).getD k default) = some i ∧
    (∀ m, m < k → attemptOn pg ((fillFieldAttempts label).getD m default) = none) ∧
    pg2 = applyFill pg i value ∧
    (fillFieldAttempts label).getD 6 default = pwInputPred := by
  rcases hr : (runAttempts pg (fillFieldAttempts label)).2 with _ | q
  · simp [fillField, hr] at h
  · rcases q with ⟨k2, i2⟩
    simp only [fillField, hr, Except.ok.injEq, Prod.mk.injEq] at h
    obtain ⟨rfl, rfl, rfl⟩ := h
    rcases runAttempts_some pg _ k2 i2 hr with ⟨h1, h2, h3⟩
    exact ⟨by simpa [fillFieldAttempts] using h1, h2, h3, rfl, rfl⟩

/-- C4 (amended) witness: `fill_field` on the `name="email"` page succeeds
at strategy 4 (the name-substring strategy). -/
theorem fillField_chain_amended_witness :
    attemptOn emailPage ((fillFieldAttempts "email").getD 4 default) = some 0 :=
  (fillField_chain_amended emailPage "email" "v" 4 0 (applyFill emailPage 0 "v")
    (by decide)).2.1

/-- C7 counterexample: the submit loop clicks a submit input whose value and
accessible name ("Go") match none of the seven labels — on the very first
label, via the third attempt, because that attempt carries no text filter. -/
theorem submit_input_ignores_label_cex :
    submitClick cex7Page none = some (0, 2, 0) ∧
    (cex7Page.elements.getD 0 default).valueAttr = "Go" ∧
    (cex7Page.elements.getD 0 default).accName = "Go" ∧
    ciContains "Go" "create account" = false ∧
    ciContains "Go" "sign up" = false ∧
    ciContains "Go" "signup" = false ∧
    ciContains "Go" "register" = false ∧
    ciContains "Go" "submit" = false ∧
    ciContains "Go" "continue" = false ∧
    ciContains "Go" "next" = false := by
  decide

/-- C7 (amended): the submit phase iterates the seven labels in order, for
each trying role-button by label, then button text by label, then the first
submit-type input REGARDLESS of the label, stopping at the first successful
click; every earlier attempt and every earlier label's whole chain failed. -/
theorem submit_chain_amended (pg : Page) (scope : Option Nat) (l a i : Nat)
    (h : submitClick pg scope = some (l, a, i)) :
    l < 7 ∧ a < 3 ∧
    (runAttempts pg (submitAttemptsFor scope (submitTexts.getD l ""))).2 = some (a, i) ∧
    (∀ m, m < l →
      (runAttempts pg (submitAttemptsFor scope (submitTexts.getD m ""))).2 = none) ∧
    attemptOn pg ((submitAttemptsFor scope (submitTexts.getD l "")).getD a default) =
      some i ∧
    (∀ m, m < a →
      attemptOn pg ((submitAttemptsFor scope (submitTexts.getD l "")).getD m default) =
        none) ∧
    (submitAttemptsFor scope (submitTexts.getD l "")).getD 2 default =
      (fun e => inScope scope e && (e.tag == "input" && e.typeAttr == "submit")) := by
  rcases submitGo_some pg scope submitTexts l a i h with ⟨h1, h2, h3⟩
  rcases runAttempts_some pg _ a i h2 with ⟨h4, h5, h6⟩
  exact ⟨by simpa [submitTexts] using h1, by simpa [submitAttemptsFor] using h4,
    h2, h3, h5, h6, rfl⟩

/-- C7 (amended) witness: a "Sign Up" button is clicked at label 1
("sign up"), attempt 0 (role button). -/
theorem submit_chain_amended_witness :
    attemptOn sbPage ((submitAttemptsFor none (submitTexts.getD 1 "")).getD 0 default) =
      some 0 :=
  (submit_chain_amended sbPage none 1 0 0 (by decide)).2.2.2.2.1

/-- C8 counterexample: `click_by_text("sign up")` on a page whose only
element is a visible submit input with `value="SIGN UP"` (and accessible
name "Go") fails with the terminal error, although the value contains the
text case-insensitively — the value-attribute strategy matches
case-SENSITIVELY, contradicting the claimed all-strategies-case-insensitive
matching. -/
theorem clickByText_value_case_cex :
    clickByText cex8Page "sign up" = Except.error ClickError.noMatch ∧
    (cex8Page.elements.getD 0 default).tag = "input" ∧
    (cex8Page.elements.getD 0 default).typeAttr = "submit" ∧
    (cex8Page.elements.getD 0 default).valueAttr = "SIGN UP" ∧
    (cex8Page.elements.getD 0 default).visible = true ∧
    ciContains "SIGN UP" "sign up" = true ∧
    csContains "SIGN UP" "sign up" = false := by
  decide

/-- C8 (amended): `click_by_text` tries button role name, button inner
text, submit-input value, link text in that fixed order, stopping at the
first visible match; role-name, button-text and link-text match
case-insensitively but the submit-input value attribute matches
case-sensitively; on a page with only a matching link, the click succeeds
via the link-text fallback. -/
theorem clickByText_chain_amended :
    (∀ (pg : Page) (text : String) (k i : Nat),
       clickByText pg text = Except.ok (k, i) →
       k < 4 ∧ attemptOn pg ((clickAttempts text).getD k default) = some i ∧
         ∀ m, m < k → attemptOn pg ((clickAttempts text).getD m default) = none) ∧
    clickByText linkPage "Sign Up" = Except.ok (3, 0) := by
  constructor
  · intro pg text k i h
    by_cases hval : jsRegexValid text = true
    · rcases hr : (runAttempts pg (clickAttempts text)).2 with _ | q
      · simp [clickByText, hval, hr] at h
      · rcases q with ⟨k2, i2⟩
        simp only [clickByText, hval, if_true, hr, Except.ok.injEq, Prod.mk.injEq] at h
        obtain ⟨rfl, rfl⟩ := h
        rcases runAttempts_some pg _ k2 i2 hr with ⟨h1, h2, h3⟩
        exact ⟨by simpa [clickAttempts] using h1, h2, h3⟩
    · have hval2 : jsRegexValid text = false := by simpa using hval
      simp [clickByText, hval2] at h
  · decide

/-- C8 (amended) witness: the link-only page is clicked at strategy 3, the
link-text fallback. -/
theorem clickByText_chain_amended_witness :
    attemptOn linkPage ((clickAttempts "Sign Up").getD 3 default) = some 0 :=
  (clickByText_chain_amended.1 linkPage "Sign Up" 3 0 (by decide)).2.1

/-- C10: `click_by_text` builds `new RegExp(text, "i")` before any locator
attempt and outside every try/catch, so for the metacharacter text "(" it
fails with a regex syntax error on EVERY page — even on a page holding a
visible clickable element whose text is exactly "(" — and that error is
distinct from the declared terminal "unable to click" failure. -/
theorem clickByText_regex_throw (pg : Page) :
    clickByText pg "(" = Except.error ClickError.regexSyntax ∧
    clickByText parenPage "(" = Except.error ClickError.regexSyntax ∧
    attemptOn parenPage ((clickAttempts "(").getD 3 default) = some 0 ∧
    ClickError.regexSyntax ≠ ClickError.noMatch := by
  refine ⟨?_, by decide, by decide, by decide⟩
  have hinv : jsRegexValid "(" = false := by decide
  simp [clickByText, hinv]

/-- C10 witness: the regex syntax error on "(" also hits the empty page. -/
theorem clickByText_regex_throw_witness :
    clickByText emptyPage "(" = Except.error ClickError.regexSyntax :=
  (clickByText_regex_throw emptyPage).1

end BUC
